import Mathlib

/-!
Verification of the conversion-job orchestrator in `src/app.py` (a Flask
video-converter service).  The Python code is shallowly embedded: the
in-memory task registry (a Python dict) becomes an association list, the
filesystem becomes a predicate on paths (for existence checks) or a list of
paths (for the cleanup route), and the two subprocess boundaries (ffprobe /
ffmpeg) become an explicit `SubprocessOutcome` oracle describing what the
external tool did.  Python `float` values arising in fps parsing are
modelled as exact rationals `ℚ`; all inputs involved are small and exactly
representable, so the modelling is faithful on the parsed strings at issue.
-/

/-- Embeds `VideoInfo` (src/app.py lines 11-35): probed metadata record. -/
structure VideoInfo where
  duration : ℚ
  size : Nat
  bitrate : Nat
  format_name : String
  video_codec : Option String
  audio_codec : Option String
  width : Option Nat
  height : Option Nat
  fps : Option ℚ
deriving DecidableEq

/-- Lifecycle states a `ConversionTask.status` can hold in the source:
it is created as the string `'processing'` and mutated to `'completed'`
or `'error'` only. -/
inductive Status where
  | processing
  | completed
  | error
deriving DecidableEq

/-- Embeds `ConversionTask` (src/app.py lines 38-69): one job record. -/
structure ConversionTask where
  task_id : String
  input_path : String
  output_path : String
  output_filename : String
  original_filename : String
  format : String
  video_info : Option VideoInfo
  status : Status
  error : Option String
deriving DecidableEq

/-- Embeds `ConversionTask.mark_completed` (line 52): sets status only,
leaves `error` untouched. -/
def ConversionTask.mark_completed (t : ConversionTask) : ConversionTask :=
  { t with status := Status.completed }

/-- Embeds `ConversionTask.mark_error` (line 55): sets status and message. -/
def ConversionTask.mark_error (t : ConversionTask) (error_message : String) :
    ConversionTask :=
  { t with status := Status.error, error := some error_message }

/-- Association-list model of a Python dict keyed by strings: lookup. -/
def dict_get {α : Type} (d : List (String × α)) (k : String) : Option α :=
  match d with
  | [] => none
  | (k', v) :: rest => if k' = k then some v else dict_get rest k

/-- Association-list model of a Python dict: `d[k] = v` (replace or append,
preserving insertion order as CPython dicts do). -/
def dict_set {α : Type} (d : List (String × α)) (k : String) (v : α) :
    List (String × α) :=
  match d with
  | [] => [(k, v)]
  | (k', v') :: rest =>
      if k' = k then (k, v) :: rest else (k', v') :: dict_set rest k v

/-- Association-list model of a Python dict: `del d[k]`. -/
def dict_del {α : Type} (d : List (String × α)) (k : String) :
    List (String × α) :=
  match d with
  | [] => []
  | (k', v') :: rest =>
      if k' = k then dict_del rest k else (k', v') :: dict_del rest k

theorem dict_get_set_self {α : Type} (d : List (String × α)) (k : String)
    (v : α) : dict_get (dict_set d k v) k = some v := by
  induction d with
  | nil => simp [dict_set, dict_get]
  | cons hd tl ih =>
      obtain ⟨k', v'⟩ := hd
      by_cases h : k' = k <;> simp [dict_set, dict_get, h, ih]

theorem dict_get_set_other {α : Type} (d : List (String × α)) (k u : String)
    (v : α) (hne : u ≠ k) : dict_get (dict_set d k v) u = dict_get d u := by
  have hne' : k ≠ u := Ne.symm hne
  induction d with
  | nil => simp [dict_set, dict_get, hne']
  | cons hd tl ih =>
      obtain ⟨k', v'⟩ := hd
      by_cases h : k' = k
      · subst h
        simp [dict_set, dict_get, hne', ih]
      · by_cases h2 : k' = u <;> simp [dict_set, dict_get, h, h2, hne, ih]

theorem dict_get_del_self {α : Type} (d : List (String × α)) (k : String) :
    dict_get (dict_del d k) k = none := by
  induction d with
  | nil => simp [dict_del, dict_get]
  | cons hd tl ih =>
      obtain ⟨k', v'⟩ := hd
      by_cases h : k' = k <;> simp [dict_del, dict_get, h, ih]

theorem dict_get_del_other {α : Type} (d : List (String × α)) (k u : String)
    (hne : u ≠ k) : dict_get (dict_del d k) u = dict_get d u := by
  have hne' : k ≠ u := Ne.symm hne
  induction d with
  | nil => simp [dict_del]
  | cons hd tl ih =>
      obtain ⟨k', v'⟩ := hd
      by_cases h : k' = k
      · subst h
        simp [dict_del, dict_get, hne', ih]
      · by_cases h2 : k' = u <;> simp [dict_del, dict_get, h, h2, hne, ih]

/-- The task registry: embeds `TaskManager.tasks`, a dict from token to
`ConversionTask` (src/app.py lines 72-98). -/
def TaskRegistry : Type := List (String × ConversionTask)

/-- Embeds `TaskManager.create_task` (lines 76-88): builds the record in
`processing` state with no error and stores it under its token. -/
def create_task (tm : TaskRegistry) (task_id input_path output_path
    output_filename original_filename output_format : String)
    (video_info : Option VideoInfo) : TaskRegistry :=
  dict_set tm task_id
    { task_id := task_id
      input_path := input_path
      output_path := output_path
      output_filename := output_filename
      original_filename := original_filename
      format := output_format
      video_info := video_info
      status := Status.processing
      error := none }

/-- Embeds `TaskManager.get_task` (line 90): `self.tasks.get(task_id)`. -/
def get_task (tm : TaskRegistry) (task_id : String) : Option ConversionTask :=
  dict_get tm task_id

/-- Embeds `TaskManager.task_exists` (line 93): `task_id in self.tasks`. -/
def task_exists (tm : TaskRegistry) (task_id : String) : Bool :=
  (dict_get tm task_id).isSome

/-- Embeds `TaskManager.delete_task` (lines 96-98): delete if present,
silently do nothing otherwise. -/
def delete_task (tm : TaskRegistry) (task_id : String) : TaskRegistry :=
  dict_del tm task_id

/-- One entry of `VideoConverter.OUTPUT_FORMATS` (src/app.py lines 102-107):
file extension, video codec and audio codec for an output format. -/
structure FormatSettings where
  ext : String
  codec : String
  audio : String
deriving DecidableEq

/-- Python `str.split(sep)` for a one-character separator, on the
character list of a string: `"a/b"` gives `["a", "b"]`, `"a//b"` gives
`["a", "", "b"]`, the empty string gives `[""]`. -/
def splitOnChar (sep : Char) : List Char → List (List Char)
  | [] => [[]]
  | c :: rest =>
      let r := splitOnChar sep rest
      if c = sep then [] :: r
      else
        match r with
        | [] => [[c]]
        | h :: t => (c :: h) :: t

/-- ASCII lower-casing of one character; the extensions and fps strings
this code compares are ASCII, where Python `str.lower()` agrees. -/
def lowerChar (c : Char) : Char :=
  if 'A' ≤ c ∧ c ≤ 'Z' then Char.ofNat (c.toNat + 32) else c

namespace VideoConverter

/-- Embeds `VideoConverter.OUTPUT_FORMATS` (lines 102-107). -/
def OUTPUT_FORMATS : List (String × FormatSettings) :=
  [("mp4", { ext := "mp4", codec := "libx264", audio := "aac" }),
   ("webm", { ext := "webm", codec := "libvpx-vp9", audio := "libopus" }),
   ("avi", { ext := "avi", codec := "libx264", audio := "mp3" }),
   ("mkv", { ext := "mkv", codec := "libx264", audio := "aac" })]

/-- Numeric value of a digit string (only used under an all-digits guard). -/
def digitsVal (s : List Char) : Nat :=
  s.foldl (fun a c => a * 10 + (c.toNat - 48)) 0

/-- An unsigned Python decimal literal: digits, optionally with a decimal
point (`"30"`, `"23.976"`, `"5."`, `".5"`); anything else is a parse
failure. -/
def pyFloatUnsigned (s : List Char) : Option ℚ :=
  match splitOnChar '.' s with
  | [intPart] =>
      if intPart ≠ [] ∧ intPart.all Char.isDigit then
        some (digitsVal intPart : ℚ)
      else none
  | [intPart, fracPart] =>
      if (intPart ≠ [] ∨ fracPart ≠ []) ∧
          intPart.all Char.isDigit ∧
          fracPart.all Char.isDigit then
        some ((digitsVal intPart : ℚ) +
          (digitsVal fracPart : ℚ) / ((10 : ℚ) ^ fracPart.length))
      else none
  | _ => none

/-- Models Python `float(s)` on the plain decimal literals that occur as
fps strings: optional sign then an unsigned decimal.  Exotic forms the
fps domain never produces (exponents, `inf`/`nan`, whitespace,
underscores) are mapped to a parse failure, which the embedding treats
like the `ValueError` Python would raise on a non-numeric string. -/
def pyFloat (s : List Char) : Option ℚ :=
  match s with
  | '-' :: rest => (pyFloatUnsigned rest).map Neg.neg
  | '+' :: rest => pyFloatUnsigned rest
  | _ => pyFloatUnsigned s

/-- Embeds `VideoConverter._parse_fps` (src/app.py lines 109-117).  The
Python `try`/bare-`except` returning `None` is modelled by `Option`: a
split that does not yield exactly two parts (unpacking error) or a field
`float()` cannot parse maps to `none`.  A zero denominator yields the
value `0`, exactly as `return num / den if den != 0 else 0` does. -/
def parse_fps (fps_str : String) : Option ℚ :=
  if fps_str.toList.contains '/' then
    match splitOnChar '/' fps_str.toList with
    | [a, b] =>
        match pyFloat a, pyFloat b with
        | some num, some den => some (if den ≠ 0 then num / den else 0)
        | _, _ => none
    | _ => none
  else pyFloat fps_str.toList

/-- What the external `ffmpeg` subprocess did, as observed by
`subprocess.run` inside `VideoConverter.convert`: it ran to completion
with an exit code and stderr text, it exceeded the 600-second timeout
(`subprocess.TimeoutExpired`), or it could not even be launched and an
exception with the given text was raised. -/
inductive SubprocessOutcome where
  | completedProc (returncode : Int) (stderrText : String)
  | timeoutExpired
  | launchFailure (message : String)

/-- Embeds `VideoConverter.convert` (src/app.py lines 151-184), with the
subprocess boundary abstracted by `outcome`.  An unsupported format is
rejected before the subprocess runs (the result does not depend on
`outcome`); otherwise success is exactly `returncode == 0` with stderr
as diagnostic, a timeout yields the fixed timeout message, and a launch
failure yields the exception's text.  The function is total: no path
raises past the boundary. -/
def convert (input_path output_path output_format : String)
    (outcome : SubprocessOutcome) : Bool × String :=
  match dict_get OUTPUT_FORMATS output_format with
  | none => (false, "Неподдерживаемый формат")
  | some _format_nastroyki =>
      match outcome with
      | SubprocessOutcome.completedProc rc stderrText => (rc == 0, stderrText)
      | SubprocessOutcome.timeoutExpired =>
          (false, "Превышено время ожидания конвертации")
      | SubprocessOutcome.launchFailure m => (false, m)

end VideoConverter

/-- Embeds `FileValidator` (src/app.py lines 187-193). -/
structure FileValidator where
  allowed_extensions : List String

/-- Embeds `FileValidator.is_allowed` (line 191):
`'.' in filename and filename.rsplit('.', 1)[1].lower() in
self.allowed_extensions`.  `rsplit('.', 1)[1]` is the text after the
last dot. -/
def FileValidator.is_allowed (v : FileValidator) (filename : String) : Bool :=
  filename.toList.contains '.' &&
    v.allowed_extensions.contains
      (String.mk (((splitOnChar '.' filename.toList).getLastD []).map
        lowerChar))

/-- Embeds `app.config['ALLOWED_EXTENSIONS']` (src/app.py line 200). -/
def ALLOWED_EXTENSIONS : List String := ["mp4", "avi", "mov", "mkv", "webm"]

/-- Embeds the module-level `file_validator` (line 206). -/
def file_validator : FileValidator :=
  { allowed_extensions := ALLOWED_EXTENSIONS }

/-- Embeds `process_conversion` (src/app.py lines 209-222), the job
runner's reconciliation step.  `outcome` is the ffmpeg subprocess
boundary, `fsExists` is `os.path.exists` at reconciliation time, and
`fault` models an unexpected exception raised inside the `try` body
(`None` when execution is normal): the source's `except Exception`
handler catches it, re-reads the task and records `str(e)` as the error.
In both the normal and the fault path a missing task (deleted
concurrently) leaves the registry untouched.  The function is total:
nothing propagates out of it. -/
def process_conversion (tm : TaskRegistry)
    (task_id input_path output_path output_format : String)
    (outcome : VideoConverter.SubprocessOutcome) (fsExists : String → Bool)
    (fault : Option String) : TaskRegistry :=
  match fault with
  | some e =>
      match get_task tm task_id with
      | some zadacha => dict_set tm task_id (zadacha.mark_error e)
      | none => tm
  | none =>
      let res := VideoConverter.convert input_path output_path output_format
        outcome
      match get_task tm task_id with
      | some zadacha =>
          if res.1 && fsExists output_path then
            dict_set tm task_id zadacha.mark_completed
          else
            dict_set tm task_id (zadacha.mark_error
              (if res.2 = "" then "Неизвестная ошибка конвертации" else res.2))
      | none => tm

/-- Response of the `/status/<task_id>` route (src/app.py lines 298-307):
`not_found` when the token is absent from the registry, otherwise the
task's status and error. -/
inductive StatusResponse where
  | not_found
  | statusOf (status : Status) (error : Option String)
deriving DecidableEq

/-- Embeds the `/status/<task_id>` route (lines 298-307). -/
def status_route (tm : TaskRegistry) (task_id : String) : StatusResponse :=
  if task_exists tm task_id then
    match get_task tm task_id with
    | some zadacha => StatusResponse.statusOf zadacha.status zadacha.error
    | none => StatusResponse.not_found
  else StatusResponse.not_found

/-- Outcome of the `/cleanup/<task_id>` route: success (`{'success': True}`),
or the distinct not-found response (`{'success': False, 'message':
'Задача не найдена'}`, HTTP 404). -/
inductive CleanupOutcome where
  | ok
  | notFound
deriving DecidableEq

/-- The guarded removal `if os.path.exists(p): os.remove(p)` on the
list-of-paths filesystem model: a present path is removed, a missing
path is left alone (and is not an error). -/
def remove_if_exists (fs : List String) (p : String) : List String :=
  if fs.contains p then fs.filter (fun q => q != p) else fs

/-- Embeds the `/cleanup/<task_id>` route (src/app.py lines 346-364).  The
filesystem is a list of existing paths; `os.path.exists` guards each
`os.remove`, so a missing file is skipped, and removal of an existing
path cannot fail in this model (the route's `except` branch, which
would report a filesystem error, is unreachable here).  Returns the new
registry, the new filesystem and the outcome. -/
def cleanup (tm : TaskRegistry) (fs : List String) (task_id : String) :
    TaskRegistry × List String × CleanupOutcome :=
  if task_exists tm task_id then
    match get_task tm task_id with
    | some zadacha =>
        let fs1 := remove_if_exists fs zadacha.input_path
        let fs2 := remove_if_exists fs1 zadacha.output_path
        (delete_task tm task_id, fs2, CleanupOutcome.ok)
    | none => (tm, fs, CleanupOutcome.notFound)
  else (tm, fs, CleanupOutcome.notFound)

/-- Outcome of the `/upload` route's validation prefix (src/app.py lines
230-245): a redirect to the error page with a reason, or acceptance
with the format identifier that will drive the conversion. -/
inductive UploadOutcome where
  | rejected (message : String)
  | accepted (output_format : String)
deriving DecidableEq

/-- Embeds the decision prefix of `upload_file` (src/app.py lines 230-245):
presence of the `file` part, `request.form.get('format', 'mp4')` (the
`'mp4'` default when the form has no format field), the empty-filename
check, the supported-format check, and the extension allow-list check,
in source order. -/
def upload_file (hasFilePart : Bool) (filename : String)
    (formField : Option String) : UploadOutcome :=
  if !hasFilePart then UploadOutcome.rejected "Файл не выбран"
  else
    let format_vyhoda := formField.getD "mp4"
    if filename = "" then UploadOutcome.rejected "Файл не выбран"
    else if (dict_get VideoConverter.OUTPUT_FORMATS format_vyhoda).isNone then
      UploadOutcome.rejected "Неподдерживаемый формат"
    else if !(file_validator.is_allowed filename) then
      UploadOutcome.rejected
        "Неподдерживаемый формат файла. Разрешенные форматы: MP4, AVI, MOV, MKV, WEBM"
    else UploadOutcome.accepted format_vyhoda

/-- The arguments `upload_file` passes to the background
`process_conversion` thread for one accepted job (src/app.py lines
271-277): the input path, output path and format captured at creation. -/
structure RunnerArgs where
  input_path : String
  output_path : String
  format : String
deriving DecidableEq

/-- Whole-orchestrator state: the registry, the set of jobs whose
background runner has not yet reconciled (keyed by token, with the
arguments its thread was given), and every token ever minted (`uuid4`
tokens are never reused). -/
structure SysState where
  tm : TaskRegistry
  pending : List (String × RunnerArgs)
  used : List String

/-- One externally visible operation of the orchestrator. -/
inductive SysAction where
  | uploadAct (token : String) (input_path output_path output_filename
      original_filename output_format : String) (vi : Option VideoInfo)
  | finishAct (token : String) (outcome : VideoConverter.SubprocessOutcome)
      (fsExists : String → Bool) (fault : Option String)
  | cleanupAct (token : String)

/-- Transition relation of the orchestrator.  `uploadAct` is the accepted
upload (lines 247-281): a fresh token's record is created in
`processing` state and a runner thread is dispatched.  `finishAct` is
that thread's `process_conversion` reconciliation, consuming the
pending entry; the subprocess outcome, the filesystem and a possible
unexpected fault are the environment's choice.  `cleanupAct` is the
registry effect of `/cleanup/<token>` (file removal is modelled
separately in `cleanup`).  The polling routes do not change state. -/
inductive SysStep : SysState → SysAction → SysState → Prop
  | upload (s : SysState) (token input_path output_path output_filename
        original_filename output_format : String) (vi : Option VideoInfo)
      (hfresh : token ∉ s.used) :
      SysStep s (SysAction.uploadAct token input_path output_path
          output_filename original_filename output_format vi)
        { tm := create_task s.tm token input_path output_path output_filename
            original_filename output_format vi
          pending := (token,
            { input_path := input_path, output_path := output_path,
              format := output_format }) :: s.pending
          used := token :: s.used }
  | finish (s : SysState) (token : String) (args : RunnerArgs)
      (outcome : VideoConverter.SubprocessOutcome) (fsExists : String → Bool)
      (fault : Option String)
      (hpend : dict_get s.pending token = some args) :
      SysStep s (SysAction.finishAct token outcome fsExists fault)
        { tm := process_conversion s.tm token args.input_path args.output_path
            args.format outcome fsExists fault
          pending := dict_del s.pending token
          used := s.used }
  | cleanupStep (s : SysState) (token : String) :
      SysStep s (SysAction.cleanupAct token)
        { tm := delete_task s.tm token
          pending := s.pending
          used := s.used }

/-- States reachable from the empty orchestrator (fresh process: empty
registry, no pending runner, no token minted). -/
inductive SysReachable : SysState → Prop
  | init : SysReachable { tm := [], pending := [], used := [] }
  | step {s s' : SysState} {a : SysAction} (hr : SysReachable s)
      (hs : SysStep s a s') : SysReachable s'

/-- Bookkeeping invariant of reachable orchestrator states: pending
runners and registry entries use minted tokens only; a job whose runner
has not reconciled is still `processing`; and the error field is
populated exactly on `error` states. -/
def SysInv (s : SysState) : Prop :=
  (∀ t args, dict_get s.pending t = some args → t ∈ s.used) ∧
  (∀ t k, dict_get s.tm t = some k → t ∈ s.used) ∧
  (∀ t args k, dict_get s.pending t = some args → dict_get s.tm t = some k →
    k.status = Status.processing) ∧
  (∀ t k, dict_get s.tm t = some k → (k.error ≠ none ↔ k.status = Status.error))

theorem process_conversion_absent (tm : TaskRegistry)
    (tid inp outp fmt : String) (outcome : VideoConverter.SubprocessOutcome)
    (fsE : String → Bool) (fault : Option String)
    (h : dict_get tm tid = none) :
    process_conversion tm tid inp outp fmt outcome fsE fault = tm := by
  cases fault <;> simp [process_conversion, get_task, h]

theorem process_conversion_present (tm : TaskRegistry)
    (tid inp outp fmt : String) (outcome : VideoConverter.SubprocessOutcome)
    (fsE : String → Bool) (fault : Option String) (k : ConversionTask)
    (h : dict_get tm tid = some k) :
    process_conversion tm tid inp outp fmt outcome fsE fault =
        dict_set tm tid k.mark_completed ∨
      ∃ m, process_conversion tm tid inp outp fmt outcome fsE fault =
        dict_set tm tid (k.mark_error m) := by
  cases fault with
  | some e =>
      exact Or.inr ⟨e, by simp [process_conversion, get_task, h]⟩
  | none =>
      by_cases hc :
          ((VideoConverter.convert inp outp fmt outcome).1 && fsE outp) = true
      · exact Or.inl (by simp [process_conversion, get_task, h, hc])
      · refine Or.inr ⟨if (VideoConverter.convert inp outp fmt outcome).2 = ""
          then "Неизвестная ошибка конвертации"
          else (VideoConverter.convert inp outp fmt outcome).2, ?_⟩
        simp [process_conversion, get_task, h, hc]

theorem sysStep_inv {s : SysState} {a : SysAction} {s' : SysState}
    (hi : SysInv s) (hs : SysStep s a s') : SysInv s' := by
  obtain ⟨hp_used, htm_used, hpend_proc, herr⟩ := hi
  cases hs with
  | upload token inp outp outf orig fmt vi hfresh =>
      refine ⟨?_, ?_, ?_, ?_⟩
      · intro t args hget
        dsimp only at hget ⊢
        by_cases ht : token = t
        · exact List.mem_cons.mpr (Or.inl ht.symm)
        · simp only [dict_get, ht, if_false] at hget
          exact List.mem_cons_of_mem _ (hp_used t args hget)
      · intro t k hget
        dsimp only at hget ⊢
        simp only [create_task] at hget
        by_cases ht : t = token
        · exact List.mem_cons.mpr (Or.inl ht)
        · rw [dict_get_set_other _ _ _ _ ht] at hget
          exact List.mem_cons_of_mem _ (htm_used t k hget)
      · intro t args k hpend hget
        dsimp only at hpend hget ⊢
        simp only [create_task] at hget
        by_cases ht : t = token
        · subst ht
          rw [dict_get_set_self] at hget
          cases hget
          rfl
        · have ht' : token ≠ t := fun h => ht h.symm
          simp only [dict_get, ht', if_false] at hpend
          rw [dict_get_set_other _ _ _ _ ht] at hget
          exact hpend_proc t args k hpend hget
      · intro t k hget
        dsimp only at hget ⊢
        simp only [create_task] at hget
        by_cases ht : t = token
        · subst ht
          rw [dict_get_set_self] at hget
          cases hget
          simp
        · rw [dict_get_set_other _ _ _ _ ht] at hget
          exact herr t k hget
  | finish token args outcome fsExists fault hpend =>
      have htoken_used : token ∈ s.used := hp_used token args hpend
      refine ⟨?_, ?_, ?_, ?_⟩
      · intro t args' hget
        dsimp only at hget ⊢
        by_cases ht : t = token
        · rw [ht, dict_get_del_self] at hget
          cases hget
        · rw [dict_get_del_other _ _ _ ht] at hget
          exact hp_used t args' hget
      · intro t k hget
        dsimp only at hget ⊢
        rcases h0 : dict_get s.tm token with _ | k0
        · rw [process_conversion_absent _ _ _ _ _ _ _ _ h0] at hget
          exact htm_used t k hget
        · rcases process_conversion_present s.tm token args.input_path
              args.output_path args.format outcome fsExists fault k0 h0 with
            hpc | ⟨m, hpc⟩ <;>
          · rw [hpc] at hget
            by_cases ht : t = token
            · exact ht ▸ htoken_used
            · rw [dict_get_set_other _ _ _ _ ht] at hget
              exact htm_used t k hget
      · intro t args' k hpend' hget
        dsimp only at hpend' hget ⊢
        by_cases ht : t = token
        · rw [ht, dict_get_del_self] at hpend'
          cases hpend'
        · rw [dict_get_del_other _ _ _ ht] at hpend'
          rcases h0 : dict_get s.tm token with _ | k0
          · rw [process_conversion_absent _ _ _ _ _ _ _ _ h0] at hget
            exact hpend_proc t args' k hpend' hget
          · rcases process_conversion_present s.tm token args.input_path
                args.output_path args.format outcome fsExists fault k0 h0 with
              hpc | ⟨m, hpc⟩ <;>
            · rw [hpc, dict_get_set_other _ _ _ _ ht] at hget
              exact hpend_proc t args' k hpend' hget
      · intro t k hget
        dsimp only at hget ⊢
        rcases h0 : dict_get s.tm token with _ | k0
        · rw [process_conversion_absent _ _ _ _ _ _ _ _ h0] at hget
          exact herr t k hget
        · have hk0proc : k0.status = Status.processing :=
            hpend_proc token args k0 hpend h0
          have hk0err : k0.error = none := by
            rcases h : k0.error with _ | m
            · rfl
            · have := (herr token k0 h0).mp (by simp [h])
              rw [hk0proc] at this
              cases this
          rcases process_conversion_present s.tm token args.input_path
              args.output_path args.format outcome fsExists fault k0 h0 with
            hpc | ⟨m, hpc⟩
          · rw [hpc] at hget
            by_cases ht : t = token
            · subst ht
              rw [dict_get_set_self] at hget
              cases hget
              simp [ConversionTask.mark_completed, hk0err]
            · rw [dict_get_set_other _ _ _ _ ht] at hget
              exact herr t k hget
          · rw [hpc] at hget
            by_cases ht : t = token
            · subst ht
              rw [dict_get_set_self] at hget
              cases hget
              simp [ConversionTask.mark_error]
            · rw [dict_get_set_other _ _ _ _ ht] at hget
              exact herr t k hget
  | cleanupStep token =>
      refine ⟨hp_used, ?_, ?_, ?_⟩
      · intro t k hget
        dsimp only at hget ⊢
        simp only [delete_task] at hget
        by_cases ht : t = token
        · rw [ht, dict_get_del_self] at hget
          cases hget
        · rw [dict_get_del_other _ _ _ ht] at hget
          exact htm_used t k hget
      · intro t args' k hpend' hget
        dsimp only at hpend' hget ⊢
        simp only [delete_task] at hget
        by_cases ht : t = token
        · rw [ht, dict_get_del_self] at hget
          cases hget
        · rw [dict_get_del_other _ _ _ ht] at hget
          exact hpend_proc t args' k hpend' hget
      · intro t k hget
        dsimp only at hget ⊢
        simp only [delete_task] at hget
        by_cases ht : t = token
        · rw [ht, dict_get_del_self] at hget
          cases hget
        · rw [dict_get_del_other _ _ _ ht] at hget
          exact herr t k hget

theorem sysReachable_inv {s : SysState} (hr : SysReachable s) : SysInv s := by
  induction hr with
  | init =>
      refine ⟨?_, ?_, ?_, ?_⟩ <;> intro t <;> intros <;>
        simp_all [dict_get]
  | step hr hs ih => exact sysStep_inv ih hs
/-- C2 counterexample: the code does not map a zero-denominator rational to
the no-frame-rate result.  `_parse_fps("0/0")` returns the number `0`
(from `return num / den if den != 0 else 0`), while the no-frame-rate
result — what the parser returns for an unparseable value, and what
`get_video_info` stores when no video stream exists — is `None`
(`none`): the two differ. -/
theorem c2_zero_denominator_counterexample :
    VideoConverter.parse_fps "0/0" = some 0 ∧
    VideoConverter.parse_fps "0/0" ≠ none ∧
    VideoConverter.parse_fps "not-a-rate" = none := by
  refine ⟨?_, ?_, ?_⟩ <;>
    simp [VideoConverter.parse_fps, VideoConverter.pyFloat,
      VideoConverter.pyFloatUnsigned, splitOnChar, VideoConverter.digitsVal]

/-- C2 amended: `"30/1"` parses to `30.0` and `"24000/1001"` to a value
within `0.001` of `23.976`; a zero-denominator rational such as `"0/0"`
yields the sentinel `0` (not a positive frame rate), an unparseable
value yields `none`, and no case raises (the parser is a total
function). -/
theorem c2_fps_parsing :
    VideoConverter.parse_fps "30/1" = some 30 ∧
    VideoConverter.parse_fps "24000/1001" = some (24000 / 1001 : ℚ) ∧
    (23976 / 1000 : ℚ) ≤ 24000 / 1001 ∧ (24000 / 1001 : ℚ) < 23977 / 1000 ∧
    VideoConverter.parse_fps "0/0" = some 0 ∧
    VideoConverter.parse_fps "unknown" = none := by
  refine ⟨?_, ?_, by norm_num, by norm_num, ?_, ?_⟩ <;>
    simp [VideoConverter.parse_fps, VideoConverter.pyFloat,
      VideoConverter.pyFloatUnsigned, splitOnChar, VideoConverter.digitsVal]

/-- C7: each of the four supported format identifiers maps in the Format
Catalog to settings with an extension and non-empty video/audio codecs;
any other identifier fails lookup, and `convert` then returns the fixed
failure pair without consulting the subprocess at all (its result is
independent of the subprocess outcome — nothing is spawned). -/
theorem c7_format_catalog (output_format input_path output_path : String)
    (hfmt : dict_get VideoConverter.OUTPUT_FORMATS output_format = none) :
    (∀ f ∈ ["mp4", "webm", "avi", "mkv"],
      ∃ st, dict_get VideoConverter.OUTPUT_FORMATS f = some st ∧
        st.ext ≠ "" ∧ st.codec ≠ "" ∧ st.audio ≠ "") ∧
    VideoConverter.OUTPUT_FORMATS.length = 4 ∧
    (∀ outcome, VideoConverter.convert input_path output_path output_format
      outcome = (false, "Неподдерживаемый формат")) ∧
    (∀ o1 o2, VideoConverter.convert input_path output_path output_format o1 =
      VideoConverter.convert input_path output_path output_format o2) := by
  refine ⟨by decide, by decide, ?_, ?_⟩
  · intro outcome
    simp [VideoConverter.convert, hfmt]
  · intro o1 o2
    simp [VideoConverter.convert, hfmt]

/-- C7 witness: `"gif"` is outside the catalog, so `convert` fails closed
with the fixed message even on a timeout outcome. -/
theorem c7_format_catalog_witness :
    VideoConverter.convert "in.mp4" "out.gif" "gif"
      VideoConverter.SubprocessOutcome.timeoutExpired =
      (false, "Неподдерживаемый формат") :=
  (c7_format_catalog "gif" "in.mp4" "out.gif" (by decide)).2.2.1
    VideoConverter.SubprocessOutcome.timeoutExpired

/-- C8: `is_allowed` is true exactly when the filename contains a dot and
the lower-cased text after the last dot is in the extension allow-list;
in particular a filename with no dot, or whose extension is outside the
list, is rejected.  It is a pure predicate on the filename string. -/
theorem c8_is_allowed (filename : String) :
    file_validator.is_allowed filename = true ↔
      (filename.toList.contains '.' = true ∧
        String.mk (((splitOnChar '.' filename.toList).getLastD []).map
          lowerChar) ∈ ALLOWED_EXTENSIONS) := by
  simp [FileValidator.is_allowed, file_validator, List.elem_iff]

/-- C8 witness: an upper-case extension on the allow-list is accepted. -/
theorem c8_is_allowed_witness :
    file_validator.is_allowed "Movie.MKV" = true :=
  (c8_is_allowed "Movie.MKV").mpr (by decide)
/-- A concrete job record in its creation state, used to instantiate
theorems with hypotheses. -/
def sampleTask : ConversionTask :=
  { task_id := "tok"
    input_path := "uploads/tok.mp4"
    output_path := "converted/tok.avi"
    output_filename := "tok.avi"
    original_filename := "clip.mp4"
    format := "avi"
    video_info := none
    status := Status.processing
    error := none }

/-- C1: after a fault-free reconciliation run of `process_conversion`, the
job's record has state `completed` exactly when the transcode reported
success and the output path existed on disk at the check; in
particular, a reported success with no output file at the expected
path leaves the job in `error` state, never `completed`. -/
theorem c1_completed_requires_success_and_output (tm : TaskRegistry)
    (task_id input_path output_path output_format : String)
    (outcome : VideoConverter.SubprocessOutcome) (fsExists : String → Bool)
    (k' : ConversionTask)
    (h : get_task (process_conversion tm task_id input_path output_path
      output_format outcome fsExists none) task_id = some k') :
    (k'.status = Status.completed ↔
      ((VideoConverter.convert input_path output_path output_format
        outcome).1 = true ∧ fsExists output_path = true)) ∧
    ((VideoConverter.convert input_path output_path output_format
        outcome).1 = true → fsExists output_path = false →
      k'.status = Status.error) := by
  rcases h0 : dict_get tm task_id with _ | k
  · rw [process_conversion_absent _ _ _ _ _ _ _ _ h0] at h
    rw [get_task, h0] at h
    cases h
  · by_cases hc : ((VideoConverter.convert input_path output_path
        output_format outcome).1 && fsExists output_path) = true
    · have hres : process_conversion tm task_id input_path output_path
          output_format outcome fsExists none =
          dict_set tm task_id k.mark_completed := by
        simp [process_conversion, get_task, h0, hc]
      rw [hres, get_task, dict_get_set_self] at h
      cases h
      rw [Bool.and_eq_true] at hc
      refine ⟨⟨fun _ => hc, fun _ => rfl⟩, ?_⟩
      intro _ hfs
      rw [hfs] at hc
      cases hc.2
    · have hres : process_conversion tm task_id input_path output_path
          output_format outcome fsExists none =
          dict_set tm task_id (k.mark_error
            (if (VideoConverter.convert input_path output_path output_format
                outcome).2 = ""
              then "Неизвестная ошибка конвертации"
              else (VideoConverter.convert input_path output_path
                output_format outcome).2)) := by
        simp [process_conversion, get_task, h0, hc]
      rw [hres, get_task, dict_get_set_self] at h
      cases h
      rw [Bool.and_eq_true] at hc
      constructor
      · constructor
        · intro habs
          cases habs
        · intro hboth
          exact absurd hboth hc
      · intro _ _
        rfl

/-- C1 witness: a transcode that exits 0 while the output path does not
exist reconciles the job to `error`. -/
theorem c1_witness :
    (ConversionTask.mark_error sampleTask
      "Неизвестная ошибка конвертации").status = Status.error :=
  (c1_completed_requires_success_and_output [("tok", sampleTask)] "tok"
    "uploads/tok.mp4" "converted/tok.avi" "avi"
    (VideoConverter.SubprocessOutcome.completedProc 0 "") (fun _ => false)
    (ConversionTask.mark_error sampleTask "Неизвестная ошибка конвертации")
    (by decide)).2 (by decide) rfl
/-- C4: for a supported format, `convert` always returns a `(success,
diagnostic)` pair (it is a total function — nothing escapes its
boundary): a timeout yields failure with the fixed timeout message; a
non-zero exit yields failure with the tool's stderr; a launch failure
yields failure with the exception's text; and as long as the tool's
own text does not happen to equal the fixed timeout message, the
timeout diagnostic is distinct from both other diagnostics. -/
theorem c4_convert_boundary (input_path output_path output_format : String)
    (rc : Int) (stderrText launch_message : String)
    (hfmt : (dict_get VideoConverter.OUTPUT_FORMATS output_format).isSome =
      true)
    (hrc : rc ≠ 0)
    (hstderr : stderrText ≠ "Превышено время ожидания конвертации")
    (hlaunch : launch_message ≠ "Превышено время ожидания конвертации") :
    VideoConverter.convert input_path output_path output_format
        VideoConverter.SubprocessOutcome.timeoutExpired =
      (false, "Превышено время ожидания конвертации") ∧
    VideoConverter.convert input_path output_path output_format
        (VideoConverter.SubprocessOutcome.completedProc rc stderrText) =
      (false, stderrText) ∧
    VideoConverter.convert input_path output_path output_format
        (VideoConverter.SubprocessOutcome.launchFailure launch_message) =
      (false, launch_message) ∧
    (VideoConverter.convert input_path output_path output_format
        VideoConverter.SubprocessOutcome.timeoutExpired).2 ≠
      (VideoConverter.convert input_path output_path output_format
        (VideoConverter.SubprocessOutcome.completedProc rc stderrText)).2 ∧
    (VideoConverter.convert input_path output_path output_format
        VideoConverter.SubprocessOutcome.timeoutExpired).2 ≠
      (VideoConverter.convert input_path output_path output_format
        (VideoConverter.SubprocessOutcome.launchFailure launch_message)).2 := by
  rcases h0 : dict_get VideoConverter.OUTPUT_FORMATS output_format with _ | st
  · rw [h0] at hfmt
    cases hfmt
  · have h1 : VideoConverter.convert input_path output_path output_format
        VideoConverter.SubprocessOutcome.timeoutExpired =
        (false, "Превышено время ожидания конвертации") := by
      simp [VideoConverter.convert, h0]
    have h2 : VideoConverter.convert input_path output_path output_format
        (VideoConverter.SubprocessOutcome.completedProc rc stderrText) =
        (false, stderrText) := by
      simp [VideoConverter.convert, h0, hrc]
    have h3 : VideoConverter.convert input_path output_path output_format
        (VideoConverter.SubprocessOutcome.launchFailure launch_message) =
        (false, launch_message) := by
      simp [VideoConverter.convert, h0]
    refine ⟨h1, h2, h3, ?_, ?_⟩
    · rw [h1, h2]
      exact fun hcongr => hstderr hcongr.symm
    · rw [h1, h3]
      exact fun hcongr => hlaunch hcongr.symm

/-- C4 witness: with format `mp4`, exit code 1 and ordinary diagnostics,
the three failure shapes hold and the timeout message is distinct. -/
theorem c4_convert_boundary_witness :
    VideoConverter.convert "in.mp4" "out.mp4" "mp4"
        VideoConverter.SubprocessOutcome.timeoutExpired =
      (false, "Превышено время ожидания конвертации") ∧
    VideoConverter.convert "in.mp4" "out.mp4" "mp4"
        (VideoConverter.SubprocessOutcome.completedProc 1 "codec err") =
      (false, "codec err") :=
  ⟨(c4_convert_boundary "in.mp4" "out.mp4" "mp4" 1 "codec err"
      "No such file" (by decide) (by decide) (by decide) (by decide)).1,
    (c4_convert_boundary "in.mp4" "out.mp4" "mp4" 1 "codec err"
      "No such file" (by decide) (by decide) (by decide) (by decide)).2.1⟩

/-- C5: `process_conversion` on a token whose record was deleted before
reconciliation leaves the registry exactly as it was (no error, no
re-created record), whatever the outcome or fault; and an unexpected
fault during the sequence is caught at this boundary: when the record
still exists it is put into `error` state carrying the fault's
description, and nothing propagates (the function is total and returns
the updated registry). -/
theorem c5_runner_boundary (tm : TaskRegistry)
    (task_id input_path output_path output_format : String)
    (outcome : VideoConverter.SubprocessOutcome) (fsExists : String → Bool)
    (fault : Option String) :
    (get_task tm task_id = none →
      process_conversion tm task_id input_path output_path output_format
        outcome fsExists fault = tm) ∧
    (∀ e k, fault = some e → get_task tm task_id = some k →
      process_conversion tm task_id input_path output_path output_format
          outcome fsExists fault =
        dict_set tm task_id (k.mark_error e) ∧
      get_task (process_conversion tm task_id input_path output_path
          output_format outcome fsExists fault) task_id =
        some (k.mark_error e) ∧
      (k.mark_error e).status = Status.error ∧
      (k.mark_error e).error = some e) := by
  constructor
  · intro h0
    exact process_conversion_absent tm task_id input_path output_path
      output_format outcome fsExists fault h0
  · intro e k hfault h0
    subst hfault
    rw [get_task] at h0
    have hres : process_conversion tm task_id input_path output_path
        output_format outcome fsExists (some e) =
        dict_set tm task_id (k.mark_error e) := by
      simp [process_conversion, get_task, h0]
    refine ⟨hres, ?_, rfl, rfl⟩
    rw [hres, get_task, dict_get_set_self]

/-- C5 witness: a deleted token is a no-op on an empty registry; a fault
`"boom"` on a live token records `error` with that description. -/
theorem c5_runner_boundary_witness :
    process_conversion [] "ghost" "in.mp4" "out.avi" "avi"
      (VideoConverter.SubprocessOutcome.completedProc 0 "") (fun _ => true)
      none = [] ∧
    get_task (process_conversion [("tok", sampleTask)] "tok" "uploads/tok.mp4"
        "converted/tok.avi" "avi"
        (VideoConverter.SubprocessOutcome.completedProc 0 "") (fun _ => true)
        (some "boom")) "tok" =
      some (ConversionTask.mark_error sampleTask "boom") :=
  ⟨(c5_runner_boundary [] "ghost" "in.mp4" "out.avi" "avi"
      (VideoConverter.SubprocessOutcome.completedProc 0 "") (fun _ => true)
      none).1 rfl,
    ((c5_runner_boundary [("tok", sampleTask)] "tok" "uploads/tok.mp4"
      "converted/tok.avi" "avi"
      (VideoConverter.SubprocessOutcome.completedProc 0 "") (fun _ => true)
      (some "boom")).2 "boom" sampleTask rfl (by decide)).2.1⟩
/-- C3: in every reachable orchestrator state — that is, after job
creation and after every state transition performed by the data-model
operations and the job runner — every record in the registry has a
populated (`Some`) error field exactly when its state is `error`. -/
theorem c3_error_iff_error_state {s : SysState} (hr : SysReachable s)
    (t : String) (k : ConversionTask) (h : get_task s.tm t = some k) :
    k.error ≠ none ↔ k.status = Status.error :=
  (sysReachable_inv hr).2.2.2 t k h

/-- C3 witness: the record just created by an accepted upload satisfies
the invariant (error unset, state `processing`). -/
theorem c3_error_iff_error_state_witness :
    sampleTask.error ≠ none ↔ sampleTask.status = Status.error :=
  c3_error_iff_error_state
    (SysReachable.step SysReachable.init
      (SysStep.upload { tm := [], pending := [], used := [] } "tok"
        "uploads/tok.mp4" "converted/tok.avi" "tok.avi" "clip.mp4" "avi" none
        (by decide)))
    "tok" sampleTask (by decide)

/-- C6: once a job's record is terminal (`completed` or `error`), no
orchestrator step changes that record again: after any further step the
token still maps to the same record, except that the cleanup deletion
of that very token removes it — deletion is the only way the job
leaves the registry. -/
theorem c6_terminal_monotone {s s' : SysState} {a : SysAction}
    (hr : SysReachable s) (hs : SysStep s a s') (t : String)
    (k : ConversionTask) (hk : get_task s.tm t = some k)
    (hterm : k.status = Status.completed ∨ k.status = Status.error) :
    get_task s'.tm t = some k ∨
      (a = SysAction.cleanupAct t ∧ get_task s'.tm t = none) := by
  obtain ⟨hp_used, htm_used, hpend_proc, herr⟩ := sysReachable_inv hr
  rw [get_task] at hk
  cases hs with
  | upload token inp outp outf orig fmt vi hfresh =>
      left
      have ht : t ≠ token := fun he => hfresh (he ▸ htm_used t k hk)
      show dict_get (create_task s.tm token inp outp outf orig fmt vi) t =
        some k
      rw [create_task, dict_get_set_other _ _ _ _ ht]
      exact hk
  | finish token args outcome fsExists fault hpend =>
      left
      by_cases ht : t = token
      · subst ht
        have hproc := hpend_proc t args k hpend hk
        rcases hterm with h1 | h1 <;> rw [hproc] at h1 <;> cases h1
      · show dict_get (process_conversion s.tm token args.input_path
          args.output_path args.format outcome fsExists fault) t = some k
        rcases h0 : dict_get s.tm token with _ | k0
        · rw [process_conversion_absent _ _ _ _ _ _ _ _ h0]
          exact hk
        · rcases process_conversion_present s.tm token args.input_path
              args.output_path args.format outcome fsExists fault k0 h0 with
            hpc | ⟨m, hpc⟩ <;>
          · rw [hpc, dict_get_set_other _ _ _ _ ht]
            exact hk
  | cleanupStep token =>
      by_cases ht : t = token
      · subst ht
        right
        refine ⟨rfl, ?_⟩
        show dict_get (delete_task s.tm t) t = none
        rw [delete_task]
        exact dict_get_del_self _ _
      · left
        show dict_get (delete_task s.tm token) t = some k
        rw [delete_task, dict_get_del_other _ _ _ ht]
        exact hk
/-- Initial orchestrator state (fresh process). -/
def wS0 : SysState := { tm := [], pending := [], used := [] }

/-- Runner arguments of the sample job. -/
def wArgs : RunnerArgs :=
  { input_path := "uploads/tok.mp4", output_path := "converted/tok.avi",
    format := "avi" }

/-- State after the sample upload. -/
def wS1 : SysState :=
  { tm := [("tok", sampleTask)], pending := [("tok", wArgs)], used := ["tok"] }

/-- State after the sample job's runner reconciles a successful transcode
whose output file exists. -/
def wS2 : SysState :=
  { tm := [("tok", ConversionTask.mark_completed sampleTask)],
    pending := [], used := ["tok"] }

/-- C6 witness: a job driven to `completed` through upload and
reconciliation, then hit by a cleanup step, leaves the registry by
deletion (the only permitted exit from a terminal state). -/
theorem c6_terminal_monotone_witness :
    get_task (delete_task [("tok", ConversionTask.mark_completed sampleTask)]
        "tok") "tok" = some (ConversionTask.mark_completed sampleTask) ∨
      (SysAction.cleanupAct "tok" = SysAction.cleanupAct "tok" ∧
        get_task (delete_task [("tok", ConversionTask.mark_completed
          sampleTask)] "tok") "tok" = none) :=
  c6_terminal_monotone
    (SysReachable.step
      (SysReachable.step SysReachable.init
        (show SysStep wS0 (SysAction.uploadAct "tok" "uploads/tok.mp4"
            "converted/tok.avi" "tok.avi" "clip.mp4" "avi" none) wS1 from
          SysStep.upload wS0 "tok" "uploads/tok.mp4" "converted/tok.avi"
            "tok.avi" "clip.mp4" "avi" none (by decide)))
      (show SysStep wS1 (SysAction.finishAct "tok"
          (VideoConverter.SubprocessOutcome.completedProc 0 "")
          (fun _ => true) none) wS2 from
        SysStep.finish wS1 "tok" wArgs
          (VideoConverter.SubprocessOutcome.completedProc 0 "")
          (fun _ => true) none (by decide)))
    (SysStep.cleanupStep wS2 "tok") "tok"
    (ConversionTask.mark_completed sampleTask) (by decide) (Or.inl rfl)
theorem not_mem_remove_if_exists (fs : List String) (p : String) :
    p ∉ remove_if_exists fs p := by
  rw [remove_if_exists]
  by_cases h : fs.contains p = true
  · rw [if_pos h]
    intro hmem
    simp [List.mem_filter] at hmem
  · rw [if_neg h]
    intro hmem
    exact h (List.elem_iff.mpr hmem)

theorem mem_remove_if_exists {fs : List String} {p x : String}
    (h : x ∈ remove_if_exists fs p) : x ∈ fs := by
  rw [remove_if_exists] at h
  by_cases hc : fs.contains p = true
  · rw [if_pos hc] at h
    exact (List.mem_filter.mp h).1
  · rwa [if_neg hc] at h

/-- C9: for a token present in the registry, the cleanup route removes the
job's input and output files when present (a missing file is not an
error — the guarded removal just skips it), deletes the record so that
a subsequent status poll answers `not_found`, and reports success; for
a token absent from the registry it reports the distinct not-found
outcome and leaves both the registry and the filesystem unchanged. -/
theorem c9_cleanup_route (tm : TaskRegistry) (fs : List String)
    (task_id : String) :
    (∀ z, get_task tm task_id = some z →
      (cleanup tm fs task_id).2.2 = CleanupOutcome.ok ∧
      get_task (cleanup tm fs task_id).1 task_id = none ∧
      status_route (cleanup tm fs task_id).1 task_id =
        StatusResponse.not_found ∧
      z.input_path ∉ (cleanup tm fs task_id).2.1 ∧
      z.output_path ∉ (cleanup tm fs task_id).2.1) ∧
    (get_task tm task_id = none →
      cleanup tm fs task_id = (tm, fs, CleanupOutcome.notFound)) := by
  constructor
  · intro z hz
    have hres : cleanup tm fs task_id = (delete_task tm task_id,
        remove_if_exists (remove_if_exists fs z.input_path) z.output_path,
        CleanupOutcome.ok) := by
      rw [get_task] at hz
      simp [cleanup, task_exists, get_task, hz]
    rw [hres]
    refine ⟨rfl, ?_, ?_, ?_, ?_⟩
    · show dict_get (delete_task tm task_id) task_id = none
      rw [delete_task]
      exact dict_get_del_self _ _
    · show status_route (delete_task tm task_id) task_id =
        StatusResponse.not_found
      rw [status_route]
      rw [show task_exists (delete_task tm task_id) task_id = false from by
        rw [task_exists, delete_task, dict_get_del_self]
        rfl]
      rfl
    · intro hmem
      exact not_mem_remove_if_exists _ _ (mem_remove_if_exists hmem)
    · exact not_mem_remove_if_exists _ _
  · intro h0
    rw [get_task] at h0
    simp [cleanup, task_exists, h0]

/-- C9 witness: cleaning the sample job removes both files and the record
(poll answers `not_found`); cleaning an unknown token on an empty
registry reports not-found and changes nothing. -/
theorem c9_cleanup_route_witness :
    status_route (cleanup [("tok", sampleTask)]
        ["uploads/tok.mp4", "converted/tok.avi", "other.bin"] "tok").1 "tok" =
      StatusResponse.not_found ∧
    "uploads/tok.mp4" ∉ (cleanup [("tok", sampleTask)]
      ["uploads/tok.mp4", "converted/tok.avi", "other.bin"] "tok").2.1 ∧
    cleanup [] ["a"] "ghost" = ([], ["a"], CleanupOutcome.notFound) :=
  ⟨(((c9_cleanup_route [("tok", sampleTask)]
      ["uploads/tok.mp4", "converted/tok.avi", "other.bin"] "tok").1
      sampleTask (by decide)).2.2).1,
    (((c9_cleanup_route [("tok", sampleTask)]
      ["uploads/tok.mp4", "converted/tok.avi", "other.bin"] "tok").1
      sampleTask (by decide)).2.2).2.1,
    (c9_cleanup_route [] ["a"] "ghost").2 rfl⟩

/-- C10: an upload request whose form carries no format field at all is
treated as requesting `mp4`: it can never be rejected with the
unsupported-format message, and when the file part is present, the
filename non-empty and its extension allowed, it is accepted with
format `mp4`. -/
theorem c10_missing_format_defaults (hasFilePart : Bool) (filename : String) :
    (∀ m, upload_file hasFilePart filename none = UploadOutcome.rejected m →
      m ≠ "Неподдерживаемый формат") ∧
    (hasFilePart = true → filename ≠ "" →
      file_validator.is_allowed filename = true →
      upload_file hasFilePart filename none =
        UploadOutcome.accepted "mp4") := by
  constructor
  · intro m hm
    cases hasFilePart with
    | false =>
        simp [upload_file] at hm
        rw [← hm]
        decide
    | true =>
        by_cases hf : filename = ""
        · simp [upload_file, hf] at hm
          rw [← hm]
          decide
        · by_cases hall : file_validator.is_allowed filename = true
          · simp [upload_file, hf, hall, dict_get,
              VideoConverter.OUTPUT_FORMATS] at hm
          · simp [upload_file, hf, hall, dict_get,
              VideoConverter.OUTPUT_FORMATS] at hm
            rw [← hm]
            decide
  · intro h1 h2 h3
    subst h1
    simp [upload_file, h2, h3, dict_get, VideoConverter.OUTPUT_FORMATS]

/-- C10 witness: a well-formed upload with no format field is accepted
with the default format `mp4`. -/
theorem c10_missing_format_defaults_witness :
    upload_file true "clip.mp4" none = UploadOutcome.accepted "mp4" :=
  (c10_missing_format_defaults true "clip.mp4").2 rfl (by decide) (by decide)
